import Mathlib

/-!
Verification of the `duration-string` library: decomposition of a raw
seconds count into a five-field duration (years, days, hours, minutes,
seconds) and its rendering as an English sentence fragment.

The definitions below are a shallow embedding of `src/duration/mod.rs`.
Rust `usize` values are modelled as `Nat` (the library only ever works
with non-negative quantities and treats overflow as out of scope).
-/

namespace DurationString

/-- The closed enumeration of time granularities (`TimeUnitKind` in the
source), coarsest to finest: Years, Days, Hours, Minutes, Seconds. -/
inductive TimeUnitKind where
  | Seconds
  | Minutes
  | Hours
  | Days
  | Years
deriving DecidableEq

/-- A quantified time unit: a granularity paired with a non-negative
amount (`TimeUnit` in the source). -/
structure TimeUnit where
  kind : TimeUnitKind
  amount : Nat
deriving DecidableEq

/-- Structural equality on `TimeUnitKind`, as produced by Rust's
`derive(PartialEq)` on a fieldless enum. -/
def TimeUnitKind.beq : TimeUnitKind → TimeUnitKind → Bool
  | .Seconds, .Seconds => true
  | .Minutes, .Minutes => true
  | .Hours, .Hours => true
  | .Days, .Days => true
  | .Years, .Years => true
  | _, _ => false

/-- Structural equality on `TimeUnit`, as produced by Rust's
`derive(PartialEq)`: both fields must match. -/
def TimeUnit.beq (a b : TimeUnit) : Bool :=
  TimeUnitKind.beq a.kind b.kind && a.amount == b.amount

/-- `TimeUnit::new` from the source. -/
def TimeUnit.new (kind : TimeUnitKind) (amount : Nat) : TimeUnit :=
  { kind := kind, amount := amount }

/-- `impl From<&TimeUnit> for RawSeconds`: the contribution of one unit
in raw seconds, by kind. -/
def rawSecondsOfTimeUnit (t : TimeUnit) : Nat :=
  match t.kind with
  | .Seconds => t.amount
  | .Minutes => t.amount * 60
  | .Hours => t.amount * 60 * 60
  | .Days => t.amount * 60 * 60 * 24
  | .Years => t.amount * 60 * 60 * 24 * 365

/-- `impl fmt::Display for TimeUnit`: the amount in decimal, the singular
unit noun with its leading space, and an `s` pushed iff the amount
exceeds one. -/
def TimeUnit.display (t : TimeUnit) : String :=
  let s : String := Nat.repr t.amount
  let s := s ++ (match t.kind with
    | .Years => " year"
    | .Days => " day"
    | .Hours => " hour"
    | .Minutes => " minute"
    | .Seconds => " second")
  if t.amount > 1 then s ++ "s" else s

/-- The `Duration` struct from the source: one `TimeUnit` per
granularity. -/
structure Duration where
  seconds : TimeUnit
  minutes : TimeUnit
  hours : TimeUnit
  days : TimeUnit
  years : TimeUnit
deriving DecidableEq

/-- `Duration::new_zeroed`: all five fields present with amount `0` and
the matching kind tag. -/
def Duration.new_zeroed : Duration where
  seconds := TimeUnit.new .Seconds 0
  minutes := TimeUnit.new .Minutes 0
  hours := TimeUnit.new .Hours 0
  days := TimeUnit.new .Days 0
  years := TimeUnit.new .Years 0

/-- `Duration::iter_units`: the five fields in descending granularity,
keeping those with a strictly positive amount. -/
def Duration.iter_units (d : Duration) : List TimeUnit :=
  [d.years, d.days, d.hours, d.minutes, d.seconds].filter
    (fun unit => unit.amount > 0)

/-- `impl From<Duration> for RawSeconds`: fold the per-unit raw-second
contributions of the non-zero units, starting from `0`. -/
def rawSecondsOfDuration (d : Duration) : Nat :=
  (d.iter_units.map rawSecondsOfTimeUnit).foldl (fun acc n => acc + n) 0

/-- `impl From<RawSeconds> for Duration`: successive division and
remainder extraction, years first, the remainder cascading down to
seconds. The source mutates a zeroed scratch `Duration`; here each
mutation is a functional record update shadowing the previous state. -/
def Duration.fromRawSeconds (rs : Nat) : Duration :=
  let duration := Duration.new_zeroed
  let duration := { duration with
    years := { duration.years with amount := rs / (60 * 60 * 24 * 365) } }
  let rs := rs % (60 * 60 * 24 * 365)
  let duration := { duration with
    days := { duration.days with amount := rs / (60 * 60 * 24) } }
  let rs := rs % (60 * 60 * 24)
  let duration := { duration with
    hours := { duration.hours with amount := rs / (60 * 60) } }
  let rs := rs % (60 * 60)
  let duration := { duration with
    minutes := { duration.minutes with amount := rs / 60 } }
  let rs := rs % 60
  { duration with seconds := { duration.seconds with amount := rs } }

/-- `Duration::new`: construct a `Duration` from a seconds count. -/
def Duration.new (seconds : Nat) : Duration :=
  Duration.fromRawSeconds seconds

/-- Fallback unit for list indexing; the source indexes a slice whose
bounds are known, so this default is never actually selected. -/
def defaultTimeUnit : TimeUnit := TimeUnit.new .Seconds 0

/-- The body of `impl fmt::Display for Duration`, as a function of the
collected non-zero unit list: branch on zero, one, two, or more units;
with three or more, all but the last two are each pushed with a
trailing comma-space, then the last two joined by an `and` and a
terminating period. -/
def renderUnitList (units : List TimeUnit) : String :=
  match units with
  | [] => ""
  | [only_unit] => TimeUnit.display only_unit ++ "."
  | [unit_one, unit_two] =>
      TimeUnit.display unit_one ++ " and " ++ TimeUnit.display unit_two ++ "."
  | all_units =>
      let s := (all_units.take (all_units.length - 2)).foldl
        (fun s unit => s ++ (TimeUnit.display unit ++ ", ")) ""
      s ++ (TimeUnit.display (all_units.getD (all_units.length - 2) defaultTimeUnit)
        ++ " and "
        ++ TimeUnit.display (all_units.getD (all_units.length - 1) defaultTimeUnit)
        ++ ".")

/-- `impl fmt::Display for Duration`: collect the non-zero units and
render them. -/
def Duration.render (d : Duration) : String :=
  renderUnitList d.iter_units

/-- Spec-side join rule for the rendered texts of the non-zero units
(section 4.2 of the spec, stated recursively): the empty sequence
renders empty; a single text gets a terminating period; two texts are
joined by an `and` before the period; with three or more, each text
before the last two is followed by a comma and a space. -/
def specJoinTexts : List String → String
  | [] => ""
  | [x] => x ++ "."
  | [x, y] => x ++ " and " ++ y ++ "."
  | x :: xs => x ++ ", " ++ specJoinTexts xs

/-- Spec-side renderer: apply the join rule to the displayed texts of a
unit sequence. -/
def specRender (units : List TimeUnit) : String :=
  specJoinTexts (units.map TimeUnit.display)

/-- Spec-side singular noun for each granularity (section 4.1). -/
def TimeUnitKind.singularNoun : TimeUnitKind → String
  | .Seconds => "second"
  | .Minutes => "minute"
  | .Hours => "hour"
  | .Days => "day"
  | .Years => "year"

/-- Spec-side seconds constant for each granularity (section 3): the
composed values 1, 60, 3600, 86400 and 31536000. -/
def TimeUnitKind.secondsConstant : TimeUnitKind → Nat
  | .Seconds => 1
  | .Minutes => 60
  | .Hours => 3600
  | .Days => 86400
  | .Years => 31536000

end DurationString

namespace DurationString

/-- Folding addition over a list from an arbitrary accumulator is the
accumulator plus the list sum. -/
theorem foldl_add_eq_sum (l : List Nat) (a : Nat) :
    l.foldl (fun acc n => acc + n) a = a + l.sum := by
  induction l generalizing a with
  | nil => simp
  | cons x xs ih => simp [List.foldl_cons, ih]; omega

/-- A unit with amount zero contributes zero raw seconds, whatever its
kind. -/
theorem rawSecondsOfTimeUnit_eq_zero (u : TimeUnit) (h : u.amount = 0) :
    rawSecondsOfTimeUnit u = 0 := by
  cases hk : u.kind <;> simp [rawSecondsOfTimeUnit, hk, h]

/-- Dropping the zero-amount units from a list does not change the total
raw-second contribution. -/
theorem sum_filter_rawSeconds (l : List TimeUnit) :
    ((l.filter fun u => u.amount > 0).map rawSecondsOfTimeUnit).sum
      = (l.map rawSecondsOfTimeUnit).sum := by
  induction l with
  | nil => rfl
  | cons x xs ih =>
    by_cases h : x.amount > 0
    · simp [List.filter_cons, h, ih]
    · have hx : rawSecondsOfTimeUnit x = 0 :=
        rawSecondsOfTimeUnit_eq_zero x (by omega)
      simp [List.filter_cons, h, ih, hx]

/-- The fold over the non-zero units equals the sum of the raw-second
contributions of all five fields. -/
theorem rawSecondsOfDuration_eq_total (d : Duration) :
    rawSecondsOfDuration d
      = ([d.years, d.days, d.hours, d.minutes, d.seconds].map
          rawSecondsOfTimeUnit).sum := by
  unfold rawSecondsOfDuration Duration.iter_units
  rw [foldl_add_eq_sum, sum_filter_rawSeconds]
  simp

/-- C1: for every non-negative integer s, converting the decomposed
Duration back to raw seconds yields s again; equivalently the five
decomposed amounts, weighted by their unit constants, sum exactly to
the original input. -/
theorem round_trip_identity (s : Nat) :
    rawSecondsOfDuration (Duration.fromRawSeconds s) = s := by
  rw [rawSecondsOfDuration_eq_total]
  simp [Duration.fromRawSeconds, Duration.new_zeroed, TimeUnit.new,
    rawSecondsOfTimeUnit]
  omega

/-- C2: for every non-negative integer s the decomposition is canonical:
seconds and minutes amounts below 60, hours below 24, days below 365,
and the years amount is exactly s divided by 31536000. -/
theorem canonical_bounds (s : Nat) :
    (Duration.fromRawSeconds s).seconds.amount < 60 ∧
    (Duration.fromRawSeconds s).minutes.amount < 60 ∧
    (Duration.fromRawSeconds s).hours.amount < 24 ∧
    (Duration.fromRawSeconds s).days.amount < 365 ∧
    (Duration.fromRawSeconds s).years.amount = s / 31536000 := by
  refine ⟨?_, ?_, ?_, ?_, ?_⟩ <;>
    simp [Duration.fromRawSeconds, Duration.new_zeroed, TimeUnit.new] <;> omega

/-- Lists of at most five units (the only lengths a Duration can
produce) render identically under the source branching and the
spec-side join rule. -/
theorem renderUnitList_eq_specRender_of_le_five (units : List TimeUnit)
    (h : units.length ≤ 5) :
    renderUnitList units = specRender units := by
  match units with
  | [] => rfl
  | [u] => rfl
  | [u, v] => rfl
  | [u, v, w] =>
      simp [renderUnitList, specRender, specJoinTexts, String.append_assoc]
  | [u, v, w, x] =>
      simp [renderUnitList, specRender, specJoinTexts, String.append_assoc]
  | [u, v, w, x, y] =>
      simp [renderUnitList, specRender, specJoinTexts, String.append_assoc]
  | u :: v :: w :: x :: y :: z :: rest => simp at h

/-- C3: for every Duration, the source renderer agrees with the spec
join rule over the non-zero units: empty string for no units, a single
unit followed by a period, two units joined by an and, and for three or
more units each unit before the last two followed by a comma and a
space, the last two joined by an and before the terminating period, so
no comma ever precedes the and. -/
theorem render_eq_specRender (d : Duration) :
    Duration.render d = specRender d.iter_units := by
  apply renderUnitList_eq_specRender_of_le_five
  have h := List.length_filter_le (fun u => u.amount > 0)
    [d.years, d.days, d.hours, d.minutes, d.seconds]
  simpa [Duration.iter_units] using h

/-- C4: the five exact literal renderings of the spec hold: 0 seconds
renders empty, 3600 as one hour, 7140 as an hour and minutes, 7199
with three units, and 35344799 with all five units spelled out. -/
theorem exact_literal_renderings :
    Duration.render (Duration.fromRawSeconds 0) = "" ∧
    Duration.render (Duration.fromRawSeconds 3600) = "1 hour." ∧
    Duration.render (Duration.fromRawSeconds 7140) = "1 hour and 59 minutes." ∧
    Duration.render (Duration.fromRawSeconds 7199)
      = "1 hour, 59 minutes and 59 seconds." ∧
    Duration.render (Duration.fromRawSeconds 35344799)
      = "1 year, 44 days, 1 hour, 59 minutes and 59 seconds." :=
  ⟨by decide, by decide, by decide, by decide, by decide⟩

/-- C5: enumerating the units of any Duration yields exactly the fields
with strictly positive amount, in the fixed descending-granularity
field order years, days, hours, minutes, seconds (a sublist of the
five-field list), and the enumeration is empty iff all five amounts are
zero. Enumeration is a pure function of the Duration, so it never
mutates it. -/
theorem iter_units_characterization (d : Duration) :
    d.iter_units.Sublist [d.years, d.days, d.hours, d.minutes, d.seconds] ∧
    (∀ u ∈ d.iter_units, 0 < u.amount) ∧
    (∀ u ∈ [d.years, d.days, d.hours, d.minutes, d.seconds],
        0 < u.amount → u ∈ d.iter_units) ∧
    (d.iter_units = [] ↔
      d.years.amount = 0 ∧ d.days.amount = 0 ∧ d.hours.amount = 0 ∧
        d.minutes.amount = 0 ∧ d.seconds.amount = 0) := by
  refine ⟨List.filter_sublist _, ?_, ?_, ?_⟩
  · intro u hu
    have h := List.of_mem_filter hu
    simpa using h
  · intro u hu hpos
    exact List.mem_filter.mpr ⟨hu, by simpa using hpos⟩
  · simp [Duration.iter_units, List.filter_eq_nil_iff]

/-- Witness for C5: in the decomposition of 90061 seconds (one day, one
hour, one minute, one second) the days field, having positive amount,
is enumerated. -/
theorem iter_units_characterization_witness :
    TimeUnit.new TimeUnitKind.Days 1 ∈ (Duration.fromRawSeconds 90061).iter_units :=
  ((iter_units_characterization (Duration.fromRawSeconds 90061)).2.2.1)
    (TimeUnit.new TimeUnitKind.Days 1) (by decide) (by decide)

/-- C6: a TimeUnit renders as its amount, a space, the singular English
noun of its kind, and an s appended iff the amount exceeds one — so
amounts 0 and 1 stay singular and every amount of at least 2 is
pluralized; no trailing punctuation is added at this layer. -/
theorem timeUnit_display_spec (t : TimeUnit) :
    TimeUnit.display t
      = Nat.repr t.amount ++ " " ++ TimeUnitKind.singularNoun t.kind
          ++ (if t.amount > 1 then "s" else "") := by
  obtain ⟨k, a⟩ := t
  by_cases h : a > 1 <;> cases k <;>
    simp [TimeUnit.display, TimeUnitKind.singularNoun, h, String.append_assoc]

/-- C7: the raw-second contribution of a TimeUnit is its amount times
the fixed constant of its kind: 1, 60, 3600, 86400 or 31536000. -/
theorem rawSeconds_eq_amount_mul_constant (t : TimeUnit) :
    rawSecondsOfTimeUnit t = t.amount * TimeUnitKind.secondsConstant t.kind := by
  obtain ⟨k, a⟩ := t
  cases k <;> simp [rawSecondsOfTimeUnit, TimeUnitKind.secondsConstant] <;> ring

/-- Kind equality as derived in the source is propositional equality of
the enumeration. -/
theorem timeUnitKind_beq_iff (a b : TimeUnitKind) :
    TimeUnitKind.beq a b = true ↔ a = b := by
  cases a <;> cases b <;> simp [TimeUnitKind.beq]

/-- C8: two TimeUnit values compare equal iff both the kind and the
amount match, so equal kinds with differing amounts are unequal and
differing kinds with equal amounts are unequal. -/
theorem timeUnit_beq_iff (a b : TimeUnit) :
    TimeUnit.beq a b = true ↔ a.kind = b.kind ∧ a.amount = b.amount := by
  simp [TimeUnit.beq, timeUnitKind_beq_iff]

/-- Witness for C8: units of kinds Hours and Seconds with the same
amount 5 compare unequal, by the characterization. -/
theorem timeUnit_beq_iff_witness :
    (TimeUnit.beq (TimeUnit.new TimeUnitKind.Hours 5)
        (TimeUnit.new TimeUnitKind.Seconds 5) = true
      ↔ (TimeUnit.new TimeUnitKind.Hours 5).kind
            = (TimeUnit.new TimeUnitKind.Seconds 5).kind
          ∧ (TimeUnit.new TimeUnitKind.Hours 5).amount
            = (TimeUnit.new TimeUnitKind.Seconds 5).amount) :=
  timeUnit_beq_iff (TimeUnit.new TimeUnitKind.Hours 5)
    (TimeUnit.new TimeUnitKind.Seconds 5)

/-- C9: for every Duration, the fold over only the non-zero units (the
source conversion) equals the sum over all five units, since
zero-amount units contribute nothing. -/
theorem rawSeconds_fold_eq_total_sum (d : Duration) :
    rawSecondsOfDuration d
      = rawSecondsOfTimeUnit d.years + rawSecondsOfTimeUnit d.days
        + rawSecondsOfTimeUnit d.hours + rawSecondsOfTimeUnit d.minutes
        + rawSecondsOfTimeUnit d.seconds := by
  rw [rawSecondsOfDuration_eq_total]
  simp [Nat.add_assoc]

/-- C10: decomposition only ever overwrites amounts of the zeroed
scratch value, so each field of the result carries the kind tag
matching its granularity. -/
theorem fromRawSeconds_kinds (s : Nat) :
    (Duration.fromRawSeconds s).years.kind = TimeUnitKind.Years ∧
    (Duration.fromRawSeconds s).days.kind = TimeUnitKind.Days ∧
    (Duration.fromRawSeconds s).hours.kind = TimeUnitKind.Hours ∧
    (Duration.fromRawSeconds s).minutes.kind = TimeUnitKind.Minutes ∧
    (Duration.fromRawSeconds s).seconds.kind = TimeUnitKind.Seconds :=
  ⟨rfl, rfl, rfl, rfl, rfl⟩

end DurationString
